import Mathlib

/-!
Shallow embedding of the spaced-repetition scheduler of the
`ai-learning-assistant` repository (src/services/firebaseService.ts).

Dates are modelled as integers counting days; JavaScript numbers are
modelled as rationals.  The Firestore collection `revisionSchedules` is a
list of documents; a read that may fail is an `Except` value.
-/

namespace AILearn

inductive ScheduleType
  | daily
  | weekly
  | monthly
deriving DecidableEq

inductive Difficulty
  | easy
  | medium
  | hard
deriving DecidableEq

/-- `RevisionSchedule` from src/types/index.ts. -/
structure RevisionSchedule where
  id : String
  userId : String
  contentId : String
  topicId : String
  topicName : String
  scheduleType : ScheduleType
  nextReviewDate : ℤ
  lastReviewDate : Option ℤ
  reviewCount : ℕ
  masteryLevel : ℚ
  interval : ℚ
  easeFactor : ℚ
deriving DecidableEq

/-- `ExtractedTopic` from src/types/index.ts. -/
structure ExtractedTopic where
  id : String
  name : String
  content : String
  keyTerms : List String
  difficulty : Difficulty
  masteryLevel : ℚ
  quizCount : ℕ
  lastQuizScore : Option ℚ
deriving DecidableEq

/-- `StoredContent` from src/types/index.ts (summary and dates kept abstract). -/
structure StoredContent where
  id : String
  userId : String
  title : String
  fileName : String
  content : String
  summary : Option String
  topics : List ExtractedTopic
  createdAt : ℤ
  lastRevisedAt : Option ℤ
  fileType : String
deriving DecidableEq

/-- A persistence-layer (Firestore) failure, as caught by the catch blocks. -/
structure PersistError where
  msg : String
deriving DecidableEq

/-- JavaScript `Math.round`: halves round toward positive infinity. -/
def jsRound (x : ℚ) : ℤ := ⌊x + 1 / 2⌋

/-- The new ease factor computed by `updateRevisionAfterReview`:
`Math.max(1.3, easeFactor + (0.1 - (5 - quality) * (0.08 + (5 - quality) * 0.02)))`. -/
def newEaseFactor (ease q : ℚ) : ℚ :=
  max (13 / 10) (ease + (1 / 10 - (5 - q) * (8 / 100 + (5 - q) * (2 / 100))))

/-- The new interval (in days) computed by `updateRevisionAfterReview`. -/
def newInterval (s : RevisionSchedule) (q : ℚ) : ℤ :=
  if q < 3 then 1
  else if s.reviewCount = 0 then 1
  else if s.reviewCount = 1 then 6
  else jsRound (s.interval * newEaseFactor s.easeFactor q)

/-- The fields written by the `updateDoc` call of `updateRevisionAfterReview`,
applied to the schedule that was read. -/
def applyReview (s : RevisionSchedule) (q : ℚ) (now : ℤ) : RevisionSchedule :=
  { s with
    interval := ((newInterval s q : ℤ) : ℚ)
    easeFactor := newEaseFactor s.easeFactor q
    reviewCount := s.reviewCount + 1
    lastReviewDate := some now
    nextReviewDate := now + newInterval s q
    masteryLevel := min 100 (max 0 (s.masteryLevel + (q - 5 / 2) * 10)) }

/-- `updateRevisionAfterReview(scheduleId, quality)`: reads the document with
the given id; if it does not exist the function returns with no write;
otherwise it writes the SM-2 update back to that document. -/
def updateRevisionAfterReview (db : List RevisionSchedule) (scheduleId : String)
    (q : ℚ) (now : ℤ) : List RevisionSchedule :=
  match db.find? (fun t => t.id == scheduleId) with
  | none => db
  | some s => db.map (fun t => if t.id == scheduleId then applyReview s q now else t)

/-- Insert a schedule into a list sorted ascending by `nextReviewDate`. -/
def insertByNext (s : RevisionSchedule) : List RevisionSchedule → List RevisionSchedule
  | [] => [s]
  | t :: ts =>
    if s.nextReviewDate ≤ t.nextReviewDate then s :: t :: ts else t :: insertByNext s ts

/-- The `orderBy('nextReviewDate', 'asc')` clause of the queries. -/
def sortByNextReview : List RevisionSchedule → List RevisionSchedule
  | [] => []
  | s :: ss => insertByNext s (sortByNextReview ss)

/-- `getRevisionSchedules(userId)`: queries schedules with `userId == userId`
ordered ascending by `nextReviewDate`; on a read error it returns `[]`. -/
def getRevisionSchedules (db : Except PersistError (List RevisionSchedule))
    (userId : String) : List RevisionSchedule :=
  match db with
  | .error _ => []
  | .ok docs => sortByNextReview (docs.filter (fun s => s.userId == userId))

/-- `getDueRevisions(userId)`: queries schedules with `userId == userId` and
`nextReviewDate <= now` ordered ascending; on a read error it returns `[]`. -/
def getDueRevisions (db : Except PersistError (List RevisionSchedule))
    (userId : String) (now : ℤ) : List RevisionSchedule :=
  match db with
  | .error _ => []
  | .ok docs =>
    sortByNextReview
      (docs.filter (fun s => s.userId == userId && decide (s.nextReviewDate ≤ now)))

/-- The two collections touched by `deleteStoredContent`. -/
structure AppDB where
  storedContent : List StoredContent
  revisionSchedules : List RevisionSchedule
deriving DecidableEq

/-- `deleteStoredContent(contentId)`: deletes the content document, then calls
`getRevisionSchedules(contentId)` — whose parameter is a USER id and whose
query filters on the `userId` field — and deletes each returned schedule. -/
def deleteStoredContent (db : AppDB) (contentId : String) : AppDB :=
  let afterContent : AppDB :=
    { db with storedContent := db.storedContent.filter (fun c => !(c.id == contentId)) }
  let schedules := getRevisionSchedules (Except.ok afterContent.revisionSchedules) contentId
  { afterContent with
    revisionSchedules :=
      afterContent.revisionSchedules.filter
        (fun s => !(schedules.any (fun t => t.id == s.id))) }

/-- The schedule object passed to `saveRevisionSchedule` for one topic inside
`createRevisionSchedulesForContent` (the Firestore document id is `docId`). -/
def mkSchedule (docId userId contentId : String) (t : ExtractedTopic)
    (tomorrow : ℤ) : RevisionSchedule :=
  { id := docId
    userId := userId
    contentId := contentId
    topicId := t.id
    topicName := t.name
    scheduleType := ScheduleType.daily
    nextReviewDate := tomorrow
    lastReviewDate := none
    reviewCount := 0
    masteryLevel := 0
    interval := 1
    easeFactor := 5 / 2 }

/-- The `for (const topic of topics)` loop of `createRevisionSchedulesForContent`.
`fresh i` is the document id Firestore assigns to the i-th insert; `failsAt i`
says whether the i-th `saveRevisionSchedule` call throws.  The whole loop sits
inside one try/catch, so the first throw ends the loop; the catch only logs. -/
def createGo (fresh : ℕ → String) (failsAt : ℕ → Bool) (userId contentId : String)
    (tomorrow : ℤ) : ℕ → List RevisionSchedule → List ExtractedTopic → List RevisionSchedule
  | _, db, [] => db
  | i, db, t :: rest =>
    if failsAt i then db
    else createGo fresh failsAt userId contentId tomorrow (i + 1)
      (db ++ [mkSchedule (fresh i) userId contentId t tomorrow]) rest

/-- `createRevisionSchedulesForContent(userId, contentId, topics)`:
computes `tomorrow = now + 1 day` and saves one schedule per topic. -/
def createRevisionSchedulesForContent (fresh : ℕ → String) (failsAt : ℕ → Bool)
    (userId contentId : String) (db : List RevisionSchedule)
    (topics : List ExtractedTopic) (now : ℤ) : List RevisionSchedule :=
  createGo fresh failsAt userId contentId (now + 1) 0 db topics

/-- The schedules the loop creates when no save fails, starting at index `i`. -/
def mkSchedules (fresh : ℕ → String) (userId contentId : String) (tomorrow : ℤ) :
    ℕ → List ExtractedTopic → List RevisionSchedule
  | _, [] => []
  | i, t :: rest =>
    mkSchedule (fresh i) userId contentId t tomorrow ::
      mkSchedules fresh userId contentId tomorrow (i + 1) rest

/-! ### Concrete fixtures used by witnesses and counterexamples -/

/-- A freshly created schedule (the state right after topic extraction). -/
def sEx : RevisionSchedule :=
  { id := "s1"
    userId := "u1"
    contentId := "c1"
    topicId := "t1"
    topicName := "Topic One"
    scheduleType := ScheduleType.daily
    nextReviewDate := 1
    lastReviewDate := none
    reviewCount := 0
    masteryLevel := 0
    interval := 1
    easeFactor := 5 / 2 }

/-- A mature schedule, two or more reviews in. -/
def sMature : RevisionSchedule :=
  { sEx with id := "s2", reviewCount := 5, interval := 20, masteryLevel := 60 }

def topicA : ExtractedTopic :=
  { id := "t1"
    name := "Topic One"
    content := ""
    keyTerms := []
    difficulty := Difficulty.easy
    masteryLevel := 0
    quizCount := 0
    lastQuizScore := none }

def topicB : ExtractedTopic := { topicA with id := "t2", name := "Topic Two" }

def topicC : ExtractedTopic := { topicA with id := "t3", name := "Topic Three" }

def contentEx : StoredContent :=
  { id := "c1"
    userId := "u1"
    title := "Notes"
    fileName := "notes.pdf"
    content := ""
    summary := none
    topics := [topicA]
    createdAt := 0
    lastRevisedAt := none
    fileType := "pdf" }

/-! ### Helper lemmas -/

/-- When the document exists, `updateRevisionAfterReview` rewrites exactly the
document with that id through `applyReview`. -/
lemma updateRevision_found (db : List RevisionSchedule) (sid : String)
    (s : RevisionSchedule) (q : ℚ) (now : ℤ)
    (hfind : db.find? (fun t => t.id == sid) = some s) :
    updateRevisionAfterReview db sid q now
      = db.map (fun t => if t.id == sid then applyReview s q now else t) := by
  simp only [updateRevisionAfterReview, hfind]

lemma mkSchedules_length (fresh : ℕ → String) (u c : String) (tmrw : ℤ) :
    ∀ (topics : List ExtractedTopic) (i : ℕ),
      (mkSchedules fresh u c tmrw i topics).length = topics.length := by
  intro topics
  induction topics with
  | nil => intro i; rfl
  | cons t rest ih => intro i; simp [mkSchedules, ih (i + 1)]

lemma mkSchedules_fields (fresh : ℕ → String) (u c : String) (tmrw : ℤ) :
    ∀ (topics : List ExtractedTopic) (i : ℕ) (s : RevisionSchedule),
      s ∈ mkSchedules fresh u c tmrw i topics →
        s.scheduleType = ScheduleType.daily ∧ s.nextReviewDate = tmrw ∧
        s.reviewCount = 0 ∧ s.masteryLevel = 0 ∧ s.interval = 1 ∧
        s.easeFactor = 5 / 2 ∧ s.userId = u ∧ s.contentId = c := by
  intro topics
  induction topics with
  | nil => intro i s hs; simp [mkSchedules] at hs
  | cons t rest ih =>
    intro i s hs
    simp only [mkSchedules, List.mem_cons] at hs
    rcases hs with h | h
    · subst h
      exact ⟨rfl, rfl, rfl, rfl, rfl, rfl, rfl, rfl⟩
    · exact ih (i + 1) s h

/-- With no save failing, the loop appends one schedule per topic. -/
lemma createGo_no_failure (fresh : ℕ → String) (failsAt : ℕ → Bool)
    (u c : String) (tmrw : ℤ) (hfail : ∀ j, failsAt j = false) :
    ∀ (topics : List ExtractedTopic) (i : ℕ) (db : List RevisionSchedule),
      createGo fresh failsAt u c tmrw i db topics
        = db ++ mkSchedules fresh u c tmrw i topics := by
  intro topics
  induction topics with
  | nil => intro i db; simp [createGo, mkSchedules]
  | cons t rest ih =>
    intro i db
    simp only [createGo, hfail i, Bool.false_eq_true, if_false]
    rw [ih (i + 1) (db ++ [mkSchedule (fresh i) u c t tmrw])]
    simp [mkSchedules]

/-- If the saves at indices below `k` succeed and the save at `k` throws, the
loop stops having created exactly the schedules for the first `k` topics. -/
lemma createGo_first_failure (fresh : ℕ → String) (failsAt : ℕ → Bool)
    (u c : String) (tmrw : ℤ) :
    ∀ (topics : List ExtractedTopic) (k i : ℕ) (db : List RevisionSchedule),
      k < topics.length → (∀ j, j < k → failsAt (i + j) = false) →
      failsAt (i + k) = true →
      createGo fresh failsAt u c tmrw i db topics
        = db ++ mkSchedules fresh u c tmrw i (topics.take k) := by
  intro topics
  induction topics with
  | nil => intro k i db hk; exact absurd hk (by simp)
  | cons t rest ih =>
    intro k i db hk hbefore hfail
    cases k with
    | zero =>
      have h0 : failsAt i = true := by simpa using hfail
      simp [createGo, h0, mkSchedules]
    | succ k =>
      have h0 : failsAt i = false := by simpa using hbefore 0 (Nat.succ_pos k)
      simp only [createGo, h0, Bool.false_eq_true, if_false]
      have hk' : k < rest.length := Nat.succ_lt_succ_iff.mp (by simpa using hk)
      have hbefore' : ∀ j, j < k → failsAt (i + 1 + j) = false := by
        intro j hj
        have h := hbefore (j + 1) (Nat.succ_lt_succ hj)
        have harith : i + (j + 1) = i + 1 + j := by omega
        rwa [harith] at h
      have hfail' : failsAt (i + 1 + k) = true := by
        have harith : i + (k + 1) = i + 1 + k := by omega
        rwa [harith] at hfail
      rw [ih k (i + 1) (db ++ [mkSchedule (fresh i) u c t tmrw]) hk' hbefore' hfail']
      simp [mkSchedules]

/-! ### Claim theorems -/

/-- Claim C1: for an existing schedule and any quality in [0,5], the review
rewrites exactly the found document, and the stored interval is: 1 when
quality < 3; else 1 when the prior reviewCount is 0; else 6 when it is 1;
else round(prior interval × newEase) with newEase the clamped ease factor
computed in the same call. -/
theorem recordReview_interval_formula (db : List RevisionSchedule) (sid : String)
    (s : RevisionSchedule) (q : ℚ) (now : ℤ)
    (hfind : db.find? (fun t => t.id == sid) = some s)
    (hq : 0 ≤ q ∧ q ≤ 5) :
    updateRevisionAfterReview db sid q now
      = db.map (fun t => if t.id == sid then applyReview s q now else t)
    ∧ (applyReview s q now).interval
      = (((if q < 3 then (1 : ℤ)
          else if s.reviewCount = 0 then 1
          else if s.reviewCount = 1 then 6
          else jsRound (s.interval * newEaseFactor s.easeFactor q)) : ℤ) : ℚ) :=
  ⟨updateRevision_found db sid s q now hfind, rfl⟩

/-- Witness for C1 at a mature schedule and quality 5. -/
theorem recordReview_interval_formula_witness :
    updateRevisionAfterReview [sMature] "s2" 5 100
      = [sMature].map (fun t => if t.id == "s2" then applyReview sMature 5 100 else t)
    ∧ (applyReview sMature 5 100).interval
      = (((if (5 : ℚ) < 3 then (1 : ℤ)
          else if sMature.reviewCount = 0 then 1
          else if sMature.reviewCount = 1 then 6
          else jsRound (sMature.interval * newEaseFactor sMature.easeFactor 5)) : ℤ) : ℚ) :=
  recordReview_interval_formula [sMature] "s2" sMature 5 100 (by rfl)
    ⟨by norm_num, by norm_num⟩

/-- Claim C2 (counterexample): at quality 6, outside [0,5], the call does not
fail: the found schedule IS rewritten through the same SM-2 formulas
(reviewCount goes 0 to 1, easeFactor becomes 2.66). -/
theorem recordReview_out_of_range_mutates_cex :
    updateRevisionAfterReview [sEx] "s1" 6 0 = [applyReview sEx 6 0]
    ∧ sEx.reviewCount = 0
    ∧ (applyReview sEx 6 0).reviewCount = 1
    ∧ (applyReview sEx 6 0).easeFactor = 133 / 50 := by
  refine ⟨by rfl, rfl, rfl, ?_⟩
  norm_num [applyReview, newEaseFactor, sEx, max_def]

/-- Claim C2 (amended): the scheduler performs no quality validation: for any
quality outside [0,5] the update proceeds exactly as for an in-range quality,
mutating the stored schedule. -/
theorem recordReview_no_quality_validation (db : List RevisionSchedule)
    (sid : String) (s : RevisionSchedule) (q : ℚ) (now : ℤ)
    (hfind : db.find? (fun t => t.id == sid) = some s)
    (hout : q < 0 ∨ 5 < q) :
    updateRevisionAfterReview db sid q now
      = db.map (fun t => if t.id == sid then applyReview s q now else t)
    ∧ (applyReview s q now).reviewCount = s.reviewCount + 1 :=
  ⟨updateRevision_found db sid s q now hfind, rfl⟩

/-- Witness for the amended C2 at quality 6. -/
theorem recordReview_no_quality_validation_witness :
    updateRevisionAfterReview [sEx] "s1" 6 0
      = [sEx].map (fun t => if t.id == "s1" then applyReview sEx 6 0 else t)
    ∧ (applyReview sEx 6 0).reviewCount = sEx.reviewCount + 1 :=
  recordReview_no_quality_validation [sEx] "s1" sEx 6 0 (by rfl)
    (Or.inr (by norm_num))

/-- Claim C3 (counterexample): a review against an id that matches no schedule
returns successfully with the store unchanged, instead of failing. -/
theorem recordReview_missing_id_cex :
    updateRevisionAfterReview [sEx] "nonexistent" 4 0 = [sEx] := by rfl

/-- Claim C3 (amended): when no schedule has the given id, the call succeeds
as a no-op: it leaves the store exactly as it was. -/
theorem recordReview_missing_id_noop (db : List RevisionSchedule) (sid : String)
    (q : ℚ) (now : ℤ)
    (hfind : db.find? (fun t => t.id == sid) = none) :
    updateRevisionAfterReview db sid q now = db := by
  simp only [updateRevisionAfterReview, hfind]

/-- Witness for the amended C3. -/
theorem recordReview_missing_id_noop_witness :
    updateRevisionAfterReview [sMature] "zzz" 3 7 = [sMature] :=
  recordReview_missing_id_noop [sMature] "zzz" 3 7 (by rfl)

/-- Claim C4 (code bug): deleting content "c1" leaves in place the schedule
whose contentId is "c1" (and whose userId is "u1"), because the cascade
queries the userId field with the content id. -/
theorem deleteContent_cascade_misses_schedules :
    sEx.contentId = "c1"
    ∧ (deleteStoredContent ⟨[contentEx], [sEx]⟩ "c1").storedContent = []
    ∧ (deleteStoredContent ⟨[contentEx], [sEx]⟩ "c1").revisionSchedules = [sEx] :=
  ⟨rfl, by rfl, by rfl⟩

/-- Claim C5 (counterexample): with three topics and only the second save
failing, nothing after the failure is created: only the first topic's schedule
exists, the third topic's schedule was never created. -/
theorem createSchedules_abort_cex :
    createRevisionSchedulesForContent (fun _ => "d") (fun i => i == 1)
      "u1" "c1" [] [topicA, topicB, topicC] 0
      = [mkSchedule "d" "u1" "c1" topicA 1] := by rfl

/-- Claim C5 (amended): the loop body sits in a single try/catch, so the first
failing save ends the batch: exactly the schedules for the topics before the
failing index are created, the remaining topics are skipped, and the call
returns without reporting the failure. -/
theorem createSchedules_stops_at_first_failure (fresh : ℕ → String)
    (failsAt : ℕ → Bool) (u c : String) (db : List RevisionSchedule)
    (topics : List ExtractedTopic) (now : ℤ) (k : ℕ)
    (hk : k < topics.length)
    (hbefore : ∀ j, j < k → failsAt j = false)
    (hfailk : failsAt k = true) :
    createRevisionSchedulesForContent fresh failsAt u c db topics now
      = db ++ mkSchedules fresh u c (now + 1) 0 (topics.take k) := by
  have h := createGo_first_failure fresh failsAt u c (now + 1) topics k 0 db hk
    (by intro j hj; simpa using hbefore j hj) (by simpa using hfailk)
  simpa [createRevisionSchedulesForContent] using h

/-- Witness for the amended C5: failure at index 1 of three topics. -/
theorem createSchedules_stops_at_first_failure_witness :
    createRevisionSchedulesForContent (fun _ => "d") (fun i => i == 1)
      "u1" "c1" [] [topicA, topicB, topicC] 0
      = [] ++ mkSchedules (fun _ => "d") "u1" "c1" (0 + 1) 0
          ([topicA, topicB, topicC].take 1) :=
  createSchedules_stops_at_first_failure (fun _ => "d") (fun i => i == 1)
    "u1" "c1" [] [topicA, topicB, topicC] 0 1 (by norm_num)
    (fun j hj => by simpa using Nat.ne_of_lt hj) (by rfl)

/-- Claim C6: the stored ease factor is the clamped SM-2 update
max(1.3, prior + (0.1 − (5 − q)(0.08 + (5 − q)0.02))), hence never below 1.3. -/
theorem recordReview_easeFactor_floor (db : List RevisionSchedule) (sid : String)
    (s : RevisionSchedule) (q : ℚ) (now : ℤ)
    (hfind : db.find? (fun t => t.id == sid) = some s)
    (he : 13 / 10 ≤ s.easeFactor) (hq : 0 ≤ q ∧ q ≤ 5) :
    updateRevisionAfterReview db sid q now
      = db.map (fun t => if t.id == sid then applyReview s q now else t)
    ∧ (applyReview s q now).easeFactor
      = max (13 / 10) (s.easeFactor + (1 / 10 - (5 - q) * (8 / 100 + (5 - q) * (2 / 100))))
    ∧ 13 / 10 ≤ (applyReview s q now).easeFactor :=
  ⟨updateRevision_found db sid s q now hfind, rfl, le_max_left _ _⟩

/-- Witness for C6 at quality 0. -/
theorem recordReview_easeFactor_floor_witness :
    updateRevisionAfterReview [sEx] "s1" 0 3
      = [sEx].map (fun t => if t.id == "s1" then applyReview sEx 0 3 else t)
    ∧ (applyReview sEx 0 3).easeFactor
      = max (13 / 10) (sEx.easeFactor + (1 / 10 - (5 - 0) * (8 / 100 + (5 - 0) * (2 / 100))))
    ∧ 13 / 10 ≤ (applyReview sEx 0 3).easeFactor :=
  recordReview_easeFactor_floor [sEx] "s1" sEx 0 3 (by rfl)
    (by norm_num [sEx]) ⟨by norm_num, by norm_num⟩

/-- Claim C7: the stored mastery level is clamp(0, 100, prior + (q − 2.5)·10),
hence always inside [0, 100]. -/
theorem recordReview_masteryLevel_clamped (db : List RevisionSchedule)
    (sid : String) (s : RevisionSchedule) (q : ℚ) (now : ℤ)
    (hfind : db.find? (fun t => t.id == sid) = some s)
    (hm : 0 ≤ s.masteryLevel ∧ s.masteryLevel ≤ 100) (hq : 0 ≤ q ∧ q ≤ 5) :
    updateRevisionAfterReview db sid q now
      = db.map (fun t => if t.id == sid then applyReview s q now else t)
    ∧ (applyReview s q now).masteryLevel
      = min 100 (max 0 (s.masteryLevel + (q - 5 / 2) * 10))
    ∧ 0 ≤ (applyReview s q now).masteryLevel
    ∧ (applyReview s q now).masteryLevel ≤ 100 :=
  ⟨updateRevision_found db sid s q now hfind, rfl,
    le_min (by norm_num) (le_max_left _ _), min_le_left _ _⟩

/-- Witness for C7 at quality 5 on a mature schedule. -/
theorem recordReview_masteryLevel_clamped_witness :
    updateRevisionAfterReview [sMature] "s2" 5 9
      = [sMature].map (fun t => if t.id == "s2" then applyReview sMature 5 9 else t)
    ∧ (applyReview sMature 5 9).masteryLevel
      = min 100 (max 0 (sMature.masteryLevel + ((5 : ℚ) - 5 / 2) * 10))
    ∧ 0 ≤ (applyReview sMature 5 9).masteryLevel
    ∧ (applyReview sMature 5 9).masteryLevel ≤ 100 :=
  recordReview_masteryLevel_clamped [sMature] "s2" sMature 5 9 (by rfl)
    ⟨by norm_num [sMature, sEx], by norm_num [sMature, sEx]⟩ ⟨by norm_num, by norm_num⟩

/-- Claim C8: a successful review bumps reviewCount by one, stamps
lastReviewDate with now, and sets nextReviewDate to now + newInterval days;
hence nextReviewDate = lastReviewDate + interval afterwards. -/
theorem recordReview_count_and_dates (db : List RevisionSchedule) (sid : String)
    (s : RevisionSchedule) (q : ℚ) (now : ℤ)
    (hfind : db.find? (fun t => t.id == sid) = some s)
    (hq : 0 ≤ q ∧ q ≤ 5) :
    updateRevisionAfterReview db sid q now
      = db.map (fun t => if t.id == sid then applyReview s q now else t)
    ∧ (applyReview s q now).reviewCount = s.reviewCount + 1
    ∧ (applyReview s q now).lastReviewDate = some now
    ∧ (applyReview s q now).nextReviewDate = now + newInterval s q
    ∧ ∃ d, (applyReview s q now).lastReviewDate = some d
        ∧ ((applyReview s q now).nextReviewDate : ℚ)
            = (d : ℚ) + (applyReview s q now).interval :=
  ⟨updateRevision_found db sid s q now hfind, rfl, rfl, rfl,
    ⟨now, rfl, by
      show ((now + newInterval s q : ℤ) : ℚ) = (now : ℚ) + ((newInterval s q : ℤ) : ℚ)
      push_cast
      ring⟩⟩

/-- Witness for C8 at quality 2 (a failed recall also counts). -/
theorem recordReview_count_and_dates_witness :
    updateRevisionAfterReview [sMature] "s2" 2 40
      = [sMature].map (fun t => if t.id == "s2" then applyReview sMature 2 40 else t)
    ∧ (applyReview sMature 2 40).reviewCount = sMature.reviewCount + 1
    ∧ (applyReview sMature 2 40).lastReviewDate = some 40
    ∧ (applyReview sMature 2 40).nextReviewDate = 40 + newInterval sMature 2
    ∧ ∃ d, (applyReview sMature 2 40).lastReviewDate = some d
        ∧ ((applyReview sMature 2 40).nextReviewDate : ℚ)
            = (d : ℚ) + (applyReview sMature 2 40).interval :=
  recordReview_count_and_dates [sMature] "s2" sMature 2 40 (by rfl)
    ⟨by norm_num, by norm_num⟩

/-- Claim C9: with no save failing, the batch appends exactly one schedule per
topic, each with scheduleType daily, nextReviewDate = now + 1, reviewCount 0,
masteryLevel 0, interval 1, easeFactor 2.5; the empty topics list creates
nothing. -/
theorem createSchedules_per_topic_fields (fresh : ℕ → String)
    (failsAt : ℕ → Bool) (u c : String) (db : List RevisionSchedule)
    (topics : List ExtractedTopic) (now : ℤ)
    (hfail : ∀ j, failsAt j = false) :
    createRevisionSchedulesForContent fresh failsAt u c db topics now
      = db ++ mkSchedules fresh u c (now + 1) 0 topics
    ∧ (mkSchedules fresh u c (now + 1) 0 topics).length = topics.length
    ∧ (∀ s ∈ mkSchedules fresh u c (now + 1) 0 topics,
        s.scheduleType = ScheduleType.daily ∧ s.nextReviewDate = now + 1 ∧
        s.reviewCount = 0 ∧ s.masteryLevel = 0 ∧ s.interval = 1 ∧
        s.easeFactor = 5 / 2 ∧ s.userId = u ∧ s.contentId = c)
    ∧ (topics = [] → createRevisionSchedulesForContent fresh failsAt u c db [] now = db) :=
  ⟨createGo_no_failure fresh failsAt u c (now + 1) hfail topics 0 db,
    mkSchedules_length fresh u c (now + 1) topics 0,
    fun s hs => mkSchedules_fields fresh u c (now + 1) topics 0 s hs,
    fun _ => rfl⟩

/-- Witness for C9 with one topic. -/
theorem createSchedules_per_topic_fields_witness :
    createRevisionSchedulesForContent (fun _ => "d1") (fun _ => false)
      "u1" "c1" [] [topicA] 0
      = [] ++ mkSchedules (fun _ => "d1") "u1" "c1" (0 + 1) 0 [topicA]
    ∧ (mkSchedules (fun _ => "d1") "u1" "c1" (0 + 1) 0 [topicA]).length
        = [topicA].length
    ∧ (∀ s ∈ mkSchedules (fun _ => "d1") "u1" "c1" (0 + 1) 0 [topicA],
        s.scheduleType = ScheduleType.daily ∧ s.nextReviewDate = 0 + 1 ∧
        s.reviewCount = 0 ∧ s.masteryLevel = 0 ∧ s.interval = 1 ∧
        s.easeFactor = 5 / 2 ∧ s.userId = "u1" ∧ s.contentId = "c1")
    ∧ ([topicA] = ([] : List ExtractedTopic) →
        createRevisionSchedulesForContent (fun _ => "d1") (fun _ => false)
          "u1" "c1" [] [] 0 = []) :=
  createSchedules_per_topic_fields (fun _ => "d1") (fun _ => false)
    "u1" "c1" [] [topicA] 0 (fun _ => rfl)

/-- Claim C10: when the underlying read fails, both queries return the empty
list — the very value they return for a user with no schedules at all. -/
theorem queries_swallow_read_errors (e : PersistError) (uid : String) (now : ℤ) :
    getRevisionSchedules (Except.error e) uid = []
    ∧ getDueRevisions (Except.error e) uid now = []
    ∧ getRevisionSchedules (Except.ok []) uid = []
    ∧ getDueRevisions (Except.ok []) uid now = [] :=
  ⟨rfl, rfl, rfl, rfl⟩

end AILearn
